import Mathlib

/-!
Verification development for the MMM-SteamFriends background data engine
(node_helper.js).  The JavaScript source is shallowly embedded: pure
computations become Lean functions, the stateful fetch/schedule cycle becomes
an explicit state-transition function, machine integers become Nat/Int, and
fallible calls return Option.  Network and file I/O are modelled by explicit
outcome parameters fed to the transition functions.
-/

namespace SteamFriends

/-! ### Constants (the API object in node_helper.js, lines 10-22) -/

def API_FRIENDS_PER_REQUEST : Nat := 100
def API_MAX_CONSECUTIVE_ERRORS : Nat := 5
def API_FALLBACK_POLL_INTERVAL : Nat := 300000
def API_RATE_LIMIT_BACKOFF_MS : Nat := 60000
def API_MAX_CACHE_SIZE : Nat := 1000

/-- JavaScript a-or-default on an optional numeric config value: the source
writes v or-else d, where both undefined and 0 are falsy and select d. -/
def jsOr (v : Option Nat) (d : Nat) : Nat :=
  match v with
  | none => d
  | some 0 => d
  | some n => n

/-- isValidGameId (node_helper.js line 25-27): a gameId is valid when its
string form matches a regex of one to ten digits; a falsy gameId (empty
string) is rejected by the leading truthiness test. -/
def isValidGameId (s : String) : Bool :=
  s ≠ "" && s.length ≤ 10 && s.data.all Char.isDigit

/-! ### Friend records (built in fetchFriends, lines 445-455; enrichment may
later add gameScore and totalPlaytime).  Absent JS properties are `none`. -/

inductive SortMethod where
  | alphabetic
  | recentActivity
  | totalPlaytime
deriving DecidableEq, Repr

structure GameScoreCfg where
  enabled : Bool
  minReviews : Option Nat
  refreshDays : Option Nat
deriving DecidableEq, Repr

structure Config where
  sortFriends : Option SortMethod
  gameScore : Option GameScoreCfg
deriving DecidableEq, Repr

structure Friend where
  id : String
  name : String
  avatar : String
  status : String
  inGame : Bool
  game : String
  gameId : Option String
  country : String
  lastLogOff : Option Nat
  gameScore : Option Nat := none
  totalPlaytime : Option Nat := none
deriving DecidableEq, Repr

/-! ### The sort comparator (fetchFriends lines 465-476, sortByConfig
lines 544-564).  localeCompare on names is modelled by the total order on
String: negative when the first name is smaller, positive when larger,
zero on equal names. -/

def nameCmp (a b : Friend) : Int :=
  if a.name < b.name then -1 else if b.name < a.name then 1 else 0

/-- statusOrder lookup inside the comparator (line 470-472): a missing key
yields 99. -/
def statusOrder (s : String) : Nat :=
  if s = "Online" then 0
  else if s = "Busy" then 1
  else if s = "Away" then 2
  else if s = "Snooze" then 3
  else if s = "Looking to trade" then 4
  else if s = "Looking to play" then 5
  else if s = "Offline" then 6
  else 99

/-- sortByConfig (lines 544-564).  The switch defaults to alphabetic, and
the source reads the method as config.sortFriends or-else the string
alphabetic, so an absent key selects alphabetic. -/
def sortByConfig (cfg : Config) (a b : Friend) : Int :=
  match cfg.sortFriends.getD SortMethod.alphabetic with
  | SortMethod.recentActivity =>
      let aTime : Int := (a.lastLogOff.getD 0 : Nat)
      let bTime : Int := (b.lastLogOff.getD 0 : Nat)
      if aTime ≠ bTime then bTime - aTime else nameCmp a b
  | SortMethod.totalPlaytime =>
      let aPlaytime : Int := (a.totalPlaytime.getD 0 : Nat)
      let bPlaytime : Int := (b.totalPlaytime.getD 0 : Nat)
      if aPlaytime ≠ bPlaytime then bPlaytime - aPlaytime else nameCmp a b
  | SortMethod.alphabetic => nameCmp a b

/-- The comparator passed to allFriends.sort (lines 465-476). -/
def compareFriends (cfg : Config) (a b : Friend) : Int :=
  let aInGame : Int := if a.inGame then 1 else 0
  let bInGame : Int := if b.inGame then 1 else 0
  if aInGame ≠ bInGame then bInGame - aInGame
  else
    let aOrder : Int := statusOrder a.status
    let bOrder : Int := statusOrder b.status
    if aOrder ≠ bOrder then aOrder - bOrder
    else sortByConfig cfg a b

/-- Array.prototype.sort with the comparator.  ECMAScript sort is stable, so
it is modelled by the stable mergeSort with the relation comparator-at-most
zero. -/
def sortFriends (cfg : Config) (l : List Friend) : List Friend :=
  l.mergeSort (fun a b => compareFriends cfg a b ≤ 0)

/-! ### Bounded insertion-ordered maps (the JS Map underlying both caches).
A JS Map iterates in insertion order; Map.set on an existing key updates the
value in place (the key keeps its position); delete of the first iterated key
removes the oldest insertion.  Modelled as an association list, oldest
first.  Keys are unique in every state the program reaches (Map keys are
unique), so deleting the first key is dropping the head. -/

def cacheGet {E : Type} : List (String × E) → String → Option E
  | [], _ => none
  | (k, v) :: rest, key => if k = key then some v else cacheGet rest key

/-- Map.set: replace in place when the key exists, append otherwise. -/
def mapInsert {E : Type} (c : List (String × E)) (k : String) (v : E) :
    List (String × E) :=
  if (cacheGet c k).isSome then
    c.map (fun p => if p.1 = k then (k, v) else p)
  else c ++ [(k, v)]

/-- The shared body of ScoresCache.set (lines 105-118) and PlaytimeCache.set
(lines 201-212): insert, then if the size exceeds API.MAX_CACHE_SIZE delete
the first (oldest) key. -/
def boundedInsert {E : Type} (c : List (String × E)) (k : String) (v : E) :
    List (String × E) :=
  let c' := mapInsert c k v
  if c'.length > API_MAX_CACHE_SIZE then c'.tail else c'

/-! ### Score cache entries (ScoresCache, lines 29-128).  An entry is the
spread of a fetchGameScore result plus a cachedAt stamp; fetchGameScore
returns either an invalid marker object (no score property) or a score
object (no invalid property). -/

structure ScoreEntry where
  score : Option Nat
  totalReviews : Option Nat
  reviewCount : Option Nat
  lastUpdated : Option Nat
  invalid : Bool
  cachedAt : Nat
deriving DecidableEq, Repr

/-- The two non-null shapes returned by fetchGameScore (lines 588, 605-610,
620): an invalid marker, or a score record. -/
inductive ScoreResult where
  | invalidR
  | scored (score : Nat) (totalReviews : Nat) (lastUpdated : Nat)
deriving DecidableEq, Repr

/-- ScoresCache.set spreads the result object and stamps cachedAt
(lines 108-111).  The invalid marker has no score property; the score
record has no invalid property (so the flag reads false). -/
def entryOfScoreResult (r : ScoreResult) (now : Nat) : ScoreEntry :=
  match r with
  | ScoreResult.invalidR =>
      { score := none, totalReviews := none, reviewCount := none,
        lastUpdated := none, invalid := true, cachedAt := now }
  | ScoreResult.scored s tr lu =>
      { score := some s, totalReviews := some tr, reviewCount := some tr,
        lastUpdated := some lu, invalid := false, cachedAt := now }

abbrev ScoresMap := List (String × ScoreEntry)

/-- ScoresCache.set (lines 105-118): reject invalid game ids, then bounded
insert of the stamped entry. -/
def scoresCacheSet (c : ScoresMap) (gid : String) (r : ScoreResult)
    (now : Nat) : ScoresMap :=
  if isValidGameId gid then boundedInsert c gid (entryOfScoreResult r now)
  else c

/-- ScoresCache.isStale (lines 120-123): a missing cachedAt (0 models the
absent/falsy property) is stale; otherwise stale once the age exceeds the
ttl. -/
def scoresIsStale (ttlMs now : Nat) (e : ScoreEntry) : Bool :=
  if e.cachedAt = 0 then true else decide (now - e.cachedAt > ttlMs)

/-- ScoresCache.isInvalid (lines 125-127). -/
def scoresIsInvalid (e : ScoreEntry) : Bool := e.invalid

/-- ScoresCache.load (lines 42-56) populates a fresh Map from the parsed
file by Map.set per entry; the durable file is modelled as the entry list
that save would serialize. -/
def loadEntries (file : List (String × ScoreEntry)) : ScoresMap :=
  file.foldl (fun m p => mapInsert m p.1 p.2) []

/-! ### fetchGameScore (lines 566-625).  The HTTP interaction is an input:
either a JSON body (success flag as delivered, query_summary if present), a
non-object body, or a thrown error classified by status code. -/

structure QuerySummary where
  total_positive : Nat
  total_negative : Nat
  total_reviews : Nat
deriving DecidableEq, Repr

inductive ScoreResp where
  | ok (success : Option Bool) (qs : Option QuerySummary)
  | notObject
  | err429
  | err404
  | errOther
deriving DecidableEq, Repr

/-- Math.round of total_positive divided by total times 100, as exact
round-half-up on naturals (the double rounding of the source is abstracted;
no claim depends on the digit value). -/
def jsRound100 (tp total : Nat) : Nat := (tp * 200 + total) / (2 * total)

/-- The full result of one fetchGameScore call: the returned value, the
scoreRateLimitBackoff deadline after the call, and whether a network
request was issued. -/
structure GSOutcome where
  result : Option ScoreResult
  backoff : Nat
  requested : Bool
deriving DecidableEq, Repr

/-- fetchGameScore (lines 566-625): invalid ids return null; a backoff
deadline in the future returns null without a request; a 429 sets the
deadline to now plus the cooldown and returns null; a 404 returns the
invalid marker; a body with success strictly false or no query_summary
returns the invalid marker; fewer total reviews than the configured
minimum (or-else 50), or zero positive plus negative, returns null;
otherwise the rounded score record. -/
def fetchGameScore (minReviewsCfg : Option Nat) (backoff now : Nat)
    (gid : String) (resp : ScoreResp) : GSOutcome :=
  if ¬isValidGameId gid then ⟨none, backoff, false⟩
  else if backoff > now then ⟨none, backoff, false⟩
  else
    match resp with
    | ScoreResp.notObject => ⟨none, backoff, true⟩
    | ScoreResp.ok _ none => ⟨some ScoreResult.invalidR, backoff, true⟩
    | ScoreResp.ok success (some q) =>
        if success = some false then ⟨some ScoreResult.invalidR, backoff, true⟩
        else
          let minReviews := jsOr minReviewsCfg 50
          if q.total_reviews = 0 ∨ q.total_reviews < minReviews then
            ⟨none, backoff, true⟩
          else
            let total := q.total_positive + q.total_negative
            if total = 0 then ⟨none, backoff, true⟩
            else
              ⟨some (ScoreResult.scored (jsRound100 q.total_positive total)
                q.total_reviews now), backoff, true⟩
    | ScoreResp.err429 => ⟨none, now + API_RATE_LIMIT_BACKOFF_MS, true⟩
    | ScoreResp.err404 => ⟨some ScoreResult.invalidR, backoff, true⟩
    | ScoreResp.errOther => ⟨none, backoff, true⟩

/-! ### Score enrichment (enrichWithScores, lines 627-695).  Phase one walks
the friends with their indices, applies cached scores optimistically and
collects the game ids needing a fetch together with the indices of the
friends sharing each id (the gameIdsToFetch Map, insertion ordered).  Phase
two fetches each queued id and writes results back. -/

/-- Append an index under a game id in the fetch queue, creating the entry
on first sight (gameIdsToFetch.set / push, lines 657-660). -/
def queuePush (q : List (String × List Nat)) (gid : String) (i : Nat) :
    List (String × List Nat) :=
  if (cacheGet q gid).isSome then
    q.map (fun p => if p.1 = gid then (p.1, p.2 ++ [i]) else p)
  else q ++ [(gid, [i])]

/-- One friend of the decision walk (lines 633-661): returns the possibly
score-applied friend, and the game id to queue when a fetch is needed. -/
def scoresDecideOne (c : ScoresMap) (ttlMs now : Nat) (f : Friend) :
    Friend × Option String :=
  match f.gameId with
  | none => (f, none)
  | some gid =>
    if ¬isValidGameId gid then (f, none)
    else
      match cacheGet c gid with
      | none => (f, some gid)
      | some e =>
          let f' := if ¬scoresIsInvalid e ∧ e.score.isSome then
                      { f with gameScore := e.score } else f
          if ¬(scoresIsStale ttlMs now e) then (f', none)
          else if e.reviewCount.getD 0 > 1000 ∧
                  now - e.cachedAt < 30 * 24 * 60 * 60 * 1000 then (f', none)
          else (f', some gid)

def scoresDecideGo (c : ScoresMap) (ttlMs now : Nat) :
    Nat → List Friend → List (String × List Nat) →
    List Friend × List (String × List Nat)
  | _, [], q => ([], q)
  | i, f :: fs, q =>
      let (f', toQueue) := scoresDecideOne c ttlMs now f
      let q' := match toQueue with
        | some gid => queuePush q gid i
        | none => q
      let (fs', qFinal) := scoresDecideGo c ttlMs now (i + 1) fs q'
      (f' :: fs', qFinal)

/-- The decision phase over the whole list, indices from zero. -/
def scoresDecide (c : ScoresMap) (ttlMs now : Nat) (friends : List Friend) :
    List Friend × List (String × List Nat) :=
  scoresDecideGo c ttlMs now 0 friends []

/-- Replace the element at an index, leaving other positions untouched
(friends[idx].gameScore assignments write through recorded indices). -/
def listModify {α : Type} : List α → Nat → (α → α) → List α
  | [], _, _ => []
  | x :: xs, 0, g => g x :: xs
  | x :: xs, n + 1, g => x :: listModify xs n g

/-- Assign a fetched score to every friend index recorded for its game id
(lines 685-688). -/
def assignScore (friends : List Friend) (idxs : List Nat) (s : Nat) :
    List Friend :=
  idxs.foldl (fun fs i => listModify fs i (fun f => { f with gameScore := some s })) friends

/-- The fetch-and-apply phase (lines 668-692): every queued game id is
fetched once; a null result writes nothing; a non-null result is written to
the cache, and a score result is additionally assigned to the sharing
friends.  The source issues the calls in batches of five concurrent
requests purely to bound load; state writes are applied per result as here,
so the sequential fold models each call's cache and backoff effects. -/
def scoresFetchApply (minReviewsCfg : Option Nat) (now : Nat)
    (resps : String → ScoreResp) :
    ScoresMap × Nat × List Friend → List (String × List Nat) →
    ScoresMap × Nat × List Friend
  | st, [] => st
  | (c, backoff, friends), (gid, idxs) :: rest =>
      let o := fetchGameScore minReviewsCfg backoff now gid (resps gid)
      let st' :=
        match o.result with
        | none => (c, o.backoff, friends)
        | some ScoreResult.invalidR =>
            (scoresCacheSet c gid ScoreResult.invalidR now, o.backoff, friends)
        | some (ScoreResult.scored s tr lu) =>
            (scoresCacheSet c gid (ScoreResult.scored s tr lu) now, o.backoff,
             assignScore friends idxs s)
      scoresFetchApply minReviewsCfg now resps st' rest

/-- enrichWithScores (lines 627-695) as a state transition on the cache,
the rate-limit backoff deadline and the in-flight list. -/
def enrichWithScores (minReviewsCfg : Option Nat) (c : ScoresMap)
    (backoff ttlMs now : Nat) (friends : List Friend)
    (resps : String → ScoreResp) : ScoresMap × Nat × List Friend :=
  let (friends', queue) := scoresDecide c ttlMs now friends
  scoresFetchApply minReviewsCfg now resps (c, backoff, friends') queue

/-! ### Playtime side (PlaytimeCache lines 130-218, fetchPlaytime
lines 697-723, enrichWithPlaytime lines 725-765).  The source field named
private is rendered isPrivate (keyword in Lean). -/

structure PlaytimeData where
  totalPlaytime : Nat
  gameCount : Option Nat
  isPrivate : Bool
deriving DecidableEq, Repr

structure PlaytimeEntry where
  totalPlaytime : Nat
  gameCount : Option Nat
  isPrivate : Bool
  cachedAt : Nat
deriving DecidableEq, Repr

abbrev PlaytimeMap := List (String × PlaytimeEntry)

/-- The owned-games interaction: a body whose response field carries an
optional games array (each game reduced to its playtime_forever minutes,
or-else 0), a body without a response field, or a thrown error (timeout,
network, HTTP error status). -/
inductive PlaytimeResp where
  | ok (games : Option (List Nat))
  | missingResponse
  | netError
deriving DecidableEq, Repr

/-- fetchPlaytime (lines 697-723): every failure and every empty or absent
games array yields zero total playtime with the private flag set; otherwise
the summed minutes, the game count and private false. -/
def fetchPlaytime : PlaytimeResp → PlaytimeData
  | PlaytimeResp.netError => ⟨0, none, true⟩
  | PlaytimeResp.missingResponse => ⟨0, none, true⟩
  | PlaytimeResp.ok gs =>
      let games := gs.getD []
      if games.isEmpty then ⟨0, none, true⟩
      else ⟨games.foldl (· + ·) 0, some games.length, false⟩

/-- PlaytimeCache.set (lines 201-212): spread plus cachedAt stamp, then the
shared bounded insert. -/
def playtimeCacheSet (c : PlaytimeMap) (k : String) (d : PlaytimeData)
    (now : Nat) : PlaytimeMap :=
  boundedInsert c k ⟨d.totalPlaytime, d.gameCount, d.isPrivate, now⟩

/-- PlaytimeCache.isStale (lines 214-217), same shape as the score cache. -/
def playtimeIsStale (ttlMs now : Nat) (e : PlaytimeEntry) : Bool :=
  if e.cachedAt = 0 then true else decide (now - e.cachedAt > ttlMs)

/-- One friend of the playtime decision walk (lines 730-741): a cached
entry is applied optimistically; a fresh entry suppresses the fetch, a
stale or missing one queues the friend. -/
def playtimeDecideOne (c : PlaytimeMap) (ttlMs now : Nat) (f : Friend) :
    Friend × Bool :=
  match cacheGet c f.id with
  | none => (f, true)
  | some e =>
      let f' := { f with totalPlaytime := some e.totalPlaytime }
      if ¬(playtimeIsStale ttlMs now e) then (f', false) else (f', true)

def playtimeDecideGo (c : PlaytimeMap) (ttlMs now : Nat) :
    Nat → List Friend → List Friend × List (Nat × String)
  | _, [] => ([], [])
  | i, f :: fs =>
      let (f', queueIt) := playtimeDecideOne c ttlMs now f
      let (fs', q) := playtimeDecideGo c ttlMs now (i + 1) fs
      (f' :: fs', if queueIt then (i, f.id) :: q else q)

/-- The playtime decision phase (friendsToFetch construction). -/
def playtimeDecide (c : PlaytimeMap) (ttlMs now : Nat)
    (friends : List Friend) : List Friend × List (Nat × String) :=
  playtimeDecideGo c ttlMs now 0 friends

/-- The write-back for one fetched playtime result (lines 758-761): cache
the result under the friend's id and set the friend's totalPlaytime. -/
def applyPlaytimeResult (c : PlaytimeMap) (now : Nat)
    (friends : List Friend) (i : Nat) (steamId : String)
    (d : PlaytimeData) : PlaytimeMap × List Friend :=
  (playtimeCacheSet c steamId d now,
   listModify friends i (fun f => { f with totalPlaytime := some d.totalPlaytime }))

/-! ### hashData (lines 525-529): the md5 hex digest of JSON.stringify of
the value.  The fingerprint is modelled as the serialized string itself:
the digest is a function of it, and the gate's equality test tracks
serialization equality (md5 collisions are outside the model).
JSON.stringify walks objects in property insertion order, so the model
keeps object fields as ordered lists. -/

inductive JsonV where
  | null
  | bool (b : Bool)
  | num (n : Int)
  | str (s : String)
  | arr (elems : List JsonV)
  | obj (fields : List (String × JsonV))

mutual

def stringify : JsonV → String
  | JsonV.null => "null"
  | JsonV.bool b => if b then "true" else "false"
  | JsonV.num n => toString n
  | JsonV.str s => "\"" ++ s ++ "\""
  | JsonV.arr l => "[" ++ stringifyElems l ++ "]"
  | JsonV.obj l => "\x7b" ++ stringifyFields l ++ "\x7d"

def stringifyElems : List JsonV → String
  | [] => ""
  | [v] => stringify v
  | v :: vs => stringify v ++ "," ++ stringifyElems vs

def stringifyFields : List (String × JsonV) → String
  | [] => ""
  | [(k, v)] => "\"" ++ k ++ "\":" ++ stringify v
  | (k, v) :: kvs => "\"" ++ k ++ "\":" ++ stringify v ++ "," ++ stringifyFields kvs

end

def hashData (v : JsonV) : String := stringify v

/-- The JSON value a friend record stringifies to.  The base properties are
created in literal order (lines 445-455); totalPlaytime is added during
playtime enrichment and gameScore during score enrichment, in that order,
so present optional properties follow the base ones.  JSON.stringify drops
absent (undefined) properties and keeps the null gameId. -/
def serializeFriend (f : Friend) : JsonV :=
  JsonV.obj
    ([("id", JsonV.str f.id), ("name", JsonV.str f.name),
      ("avatar", JsonV.str f.avatar), ("status", JsonV.str f.status),
      ("inGame", JsonV.bool f.inGame), ("game", JsonV.str f.game),
      ("gameId", match f.gameId with
        | some g => JsonV.str g
        | none => JsonV.null),
      ("country", JsonV.str f.country)] ++
     (match f.lastLogOff with
      | some t => [("lastLogOff", JsonV.num t)]
      | none => []) ++
     (match f.totalPlaytime with
      | some t => [("totalPlaytime", JsonV.num t)]
      | none => []) ++
     (match f.gameScore with
      | some s => [("gameScore", JsonV.num s)]
      | none => []))

def serializeFriends (l : List Friend) : JsonV :=
  JsonV.arr (l.map serializeFriend)

/-! ### Poll scheduling and the fetch cycle (start lines 220-254,
schedulePoll lines 380-393, fetchFriends lines 408-515).  A pending timer
is either the chained one set by schedulePoll, whose callback runs
fetchFriends and then schedulePoll again, or the fallback one set in the
fetchFriends catch block, whose callback runs fetchFriends alone. -/

inductive TimerK where
  | chained (delay : Nat)
  | fallback (delay : Nat)
deriving DecidableEq, Repr

structure PollState where
  baseInterval : Nat
  currentInterval : Nat
  lastChangeTime : Nat
  changeCount : Nat
deriving DecidableEq, Repr

structure HelperState where
  lastFriendsHash : Option String
  errorCount : Nat
  pollState : PollState
  timer : Option TimerK
  scoresCache : ScoresMap
  scoreRateLimitBackoff : Nat
deriving DecidableEq, Repr

inductive Event where
  | friendsUpdate (v : JsonV)
  | errorEvt

/-- What one fetchFriends invocation observes from the network: a thrown
error anywhere in the friend-list retrieval, an empty post-allowlist friend
id list, or the assembled friend records together with the review-score
responses by game id. -/
inductive CycleOutcome where
  | failure
  | emptyList
  | friendsData (friends : List Friend) (resps : String → ScoreResp)

/-- The score-cache ttl in milliseconds: refreshDays or-else 7, in days
(lines 31-33, 340). -/
def scoresTtlMs (cfg : Config) : Nat :=
  jsOr (cfg.gameScore.bind (fun g => g.refreshDays)) 7 * 24 * 60 * 60 * 1000

/-- The change gate (lines 482-488) on the stored fingerprint and poll
state: emit when the fingerprint differs, updating the stored fingerprint,
the change counter and the change timestamp. -/
def changeGate (lastHash : Option String) (ps : PollState) (now : Nat)
    (v : JsonV) : Option String × PollState × Bool :=
  let h := hashData v
  if some h ≠ lastHash then
    (some h, { ps with changeCount := ps.changeCount + 1, lastChangeTime := now }, true)
  else (lastHash, ps, false)

/-- The sort-then-score-enrich pipeline of a successful cycle
(lines 465-480), producing the updated cache, backoff and final list. -/
def pipelineRun (cfg : Config) (st : HelperState) (now : Nat)
    (friends : List Friend) (resps : String → ScoreResp) :
    ScoresMap × Nat × List Friend :=
  let sorted := sortFriends cfg friends
  if (cfg.gameScore.map (fun g => g.enabled)).getD false then
    enrichWithScores (cfg.gameScore.bind (fun g => g.minReviews))
      st.scoresCache st.scoreRateLimitBackoff (scoresTtlMs cfg) now sorted resps
  else (st.scoresCache, st.scoreRateLimitBackoff, sorted)

/-- One fetchFriends invocation (lines 408-515).  The empty-list branch
emits the empty snapshot and returns before the gate and before the error
counter reset.  The catch branch increments the error counter and, at the
threshold with a timer handle present, replaces the pending timer with the
fallback timer. -/
def fetchFriendsStep (cfg : Config) (st : HelperState) (now : Nat)
    (o : CycleOutcome) : HelperState × List Event :=
  match o with
  | CycleOutcome.emptyList => (st, [Event.friendsUpdate (JsonV.arr [])])
  | CycleOutcome.friendsData friends resps =>
      let (c', b', enriched) := pipelineRun cfg st now friends resps
      let v := serializeFriends enriched
      let (h', ps', emitted) := changeGate st.lastFriendsHash st.pollState now v
      ({ st with lastFriendsHash := h', pollState := ps', scoresCache := c',
                 scoreRateLimitBackoff := b', errorCount := 0 },
       if emitted then [Event.friendsUpdate v] else [])
  | CycleOutcome.failure =>
      let e := st.errorCount + 1
      let timer' := if e ≥ API_MAX_CONSECUTIVE_ERRORS ∧ st.timer.isSome then
                      some (TimerK.fallback API_FALLBACK_POLL_INTERVAL)
                    else st.timer
      ({ st with errorCount := e, timer := timer' }, [Event.errorEvt])

/-- schedulePoll (lines 380-393): pick the hot interval when a change was
seen within the last 300000 ms, the cold one otherwise; clear whatever
timer is pending and set the chained timer. -/
def schedulePollStep (st : HelperState) (now : Nat) : HelperState :=
  let iv := if now - st.pollState.lastChangeTime < 300000 then 30000 else 300000
  { st with pollState := { st.pollState with currentInterval := iv },
            timer := some (TimerK.chained iv) }

/-- The callback of the chained timer: fetchFriends, then (its promise
always resolves, every error being caught inside) schedulePoll.  Both reads
of the clock happen when the cycle finishes and are modelled by the same
now. -/
def chainedCycle (cfg : Config) (st : HelperState) (now : Nat)
    (o : CycleOutcome) : HelperState × List Event :=
  let (st', evs) := fetchFriendsStep cfg st now o
  (schedulePollStep st' now, evs)

/-! ### Cache persistence (ScoresCache.save lines 58-87, maybePersist
lines 89-93; PlaytimeCache has the identical logic at lines 158-193).  The
write-temporary-then-rename I/O either succeeds or throws. -/

structure PersistState where
  dirty : Bool
  lastPersist : Nat
  consecutiveFailures : Nat
deriving DecidableEq, Repr

inductive SaveIO where
  | ok
  | failed
deriving DecidableEq, Repr

structure SaveOutcome where
  state : PersistState
  replaced : Bool
  notified : Bool
deriving DecidableEq, Repr

def CACHE_MAX_FAILURES : Nat := 3

/-- save(): return immediately when not dirty; on success clear dirty, set
lastPersist to now and zero the failure counter; on failure keep dirty,
increment the counter and surface the cache-health notification once the
counter reaches the threshold (the module instance global is set in
start(), line 222, so the guard on it holds).  The catch swallows the
error, so the call never throws. -/
def cacheSave (st : PersistState) (now : Nat) (io : SaveIO) : SaveOutcome :=
  if ¬st.dirty then ⟨st, false, false⟩
  else
    match io with
    | SaveIO.ok => ⟨⟨false, now, 0⟩, true, false⟩
    | SaveIO.failed =>
        let f := st.consecutiveFailures + 1
        ⟨⟨st.dirty, st.lastPersist, f⟩, false, decide (f ≥ CACHE_MAX_FAILURES)⟩

def PERSIST_INTERVAL_MS : Nat := 5 * 60 * 1000

/-- maybePersist(): flush only when dirty and the persist interval has
elapsed. -/
def cacheMaybePersist (st : PersistState) (now : Nat) (io : SaveIO) :
    SaveOutcome :=
  if st.dirty ∧ now - st.lastPersist ≥ PERSIST_INTERVAL_MS then
    cacheSave st now io
  else ⟨st, false, false⟩

/-! ### Reachable score-cache states (for the invalid-entry invariant).
States arise from the empty map at construction, from set during
enrichment with a non-null fetchGameScore result, and from loading a file
that save serialized from an earlier state. -/

inductive ScoresReachable : ScoresMap → Prop
  | empty : ScoresReachable []
  | setStep (c : ScoresMap) (gid : String) (r : ScoreResult) (now : Nat) :
      ScoresReachable c → ScoresReachable (scoresCacheSet c gid r now)
  | reload (c : ScoresMap) :
      ScoresReachable c → ScoresReachable (loadEntries c)

/-! ## Helper lemmas -/

theorem mem_mapInsert {E : Type} {c : List (String × E)} {k : String}
    {v : E} {p : String × E} (hp : p ∈ mapInsert c k v) :
    p ∈ c ∨ p = (k, v) := by
  unfold mapInsert at hp
  split at hp
  · rcases List.mem_map.mp hp with ⟨q, hq, heq⟩
    by_cases hk : q.1 = k
    · right; rw [if_pos hk] at heq; exact heq.symm
    · left; rw [if_neg hk] at heq; exact heq ▸ hq
  · rcases List.mem_append.mp hp with h | h
    · exact Or.inl h
    · right; simpa using h

theorem mem_boundedInsert {E : Type} {c : List (String × E)} {k : String}
    {v : E} {p : String × E} (hp : p ∈ boundedInsert c k v) :
    p ∈ c ∨ p = (k, v) := by
  simp only [boundedInsert] at hp
  split at hp
  · exact mem_mapInsert ((List.tail_sublist _).subset hp)
  · exact mem_mapInsert hp

theorem mem_foldl_mapInsert {E : Type} {p : String × E} :
    ∀ (file acc : List (String × E)),
      p ∈ file.foldl (fun m q => mapInsert m q.1 q.2) acc →
      p ∈ acc ∨ p ∈ file := by
  intro file
  induction file with
  | nil => intro acc h; exact Or.inl h
  | cons q rest ih =>
      intro acc h
      rcases ih (mapInsert acc q.1 q.2) h with h' | h'
      · rcases mem_mapInsert h' with h'' | h''
        · exact Or.inl h''
        · right
          rw [h'']
          exact List.mem_cons_self _ _
      · right; exact List.mem_cons_of_mem _ h'

theorem mem_loadEntries {file : List (String × ScoreEntry)}
    {p : String × ScoreEntry} (hp : p ∈ loadEntries file) : p ∈ file := by
  rcases mem_foldl_mapInsert file [] hp with h | h
  · cases h
  · exact h

theorem cacheGet_cons {E : Type} (pk : String) (pv : E)
    (rest : List (String × E)) (k : String) :
    cacheGet ((pk, pv) :: rest) k =
      if pk = k then some pv else cacheGet rest k := rfl

theorem cacheGet_append_right {E : Type} {c : List (String × E)}
    {k : String} (v : E) (h : cacheGet c k = none) :
    cacheGet (c ++ [(k, v)]) k = some v := by
  induction c with
  | nil => simp [cacheGet]
  | cons p rest ih =>
      obtain ⟨pk, pv⟩ := p
      rw [cacheGet_cons] at h
      by_cases hk : pk = k
      · rw [if_pos hk] at h; cases h
      · rw [if_neg hk] at h
        rw [List.cons_append, cacheGet_cons, if_neg hk]
        exact ih h

theorem cacheGet_map_replace {E : Type} {c : List (String × E)}
    {k : String} (v : E) (h : (cacheGet c k).isSome = true) :
    cacheGet (c.map (fun p => if p.1 = k then (k, v) else p)) k = some v := by
  induction c with
  | nil => simp [cacheGet] at h
  | cons p rest ih =>
      obtain ⟨pk, pv⟩ := p
      rw [cacheGet_cons] at h
      by_cases hk : pk = k
      · show cacheGet ((if pk = k then ((k, v) : String × E) else (pk, pv)) ::
          rest.map (fun p => if p.1 = k then (k, v) else p)) k = some v
        rw [if_pos hk, cacheGet_cons, if_pos rfl]
      · rw [if_neg hk] at h
        show cacheGet ((if pk = k then ((k, v) : String × E) else (pk, pv)) ::
          rest.map (fun p => if p.1 = k then (k, v) else p)) k = some v
        rw [if_neg hk, cacheGet_cons, if_neg hk]
        exact ih h

theorem cacheGet_cons_none {E : Type} {pk : String} {pv : E}
    {rest : List (String × E)} {k : String}
    (h : cacheGet ((pk, pv) :: rest) k = none) : cacheGet rest k = none := by
  rw [cacheGet_cons] at h
  by_cases hk : pk = k
  · rw [if_pos hk] at h; cases h
  · rwa [if_neg hk] at h

/-- The replace branch of the bounded insert: an existing key within
capacity is updated in place with no eviction. -/
theorem boundedInsert_replace {E : Type} {c : List (String × E)} {k : String}
    (v : E) (hs : (cacheGet c k).isSome = true)
    (hlen : c.length ≤ API_MAX_CACHE_SIZE) :
    boundedInsert c k v = c.map (fun p => if p.1 = k then (k, v) else p) := by
  simp only [boundedInsert, mapInsert, hs, if_true]
  rw [if_neg (by rw [List.length_map]; omega)]

/-- The append branch of the bounded insert: a fresh key is appended and
the head is evicted exactly on overflow. -/
theorem boundedInsert_append {E : Type} {c : List (String × E)} {k : String}
    (v : E) (hn : cacheGet c k = none) :
    boundedInsert c k v =
      if (c ++ [(k, v)]).length > API_MAX_CACHE_SIZE then (c ++ [(k, v)]).tail
      else c ++ [(k, v)] := by
  simp only [boundedInsert, mapInsert, hn, Option.isSome_none,
    Bool.false_eq_true, if_false]

/-- Inserting under a key into a cache within capacity always leaves that
key readable with the new value: the eviction can only drop the oldest
entry, never the one just written. -/
theorem cacheGet_boundedInsert_self {E : Type} {c : List (String × E)}
    {k : String} (v : E) (hlen : c.length ≤ API_MAX_CACHE_SIZE) :
    cacheGet (boundedInsert c k v) k = some v := by
  by_cases hs : (cacheGet c k).isSome = true
  · rw [boundedInsert_replace v hs hlen]
    exact cacheGet_map_replace v hs
  · have hn : cacheGet c k = none := by
      cases hcg : cacheGet c k with
      | none => rfl
      | some w => rw [hcg] at hs; simp at hs
    rw [boundedInsert_append v hn]
    by_cases hov : (c ++ [(k, v)]).length > API_MAX_CACHE_SIZE
    · rw [if_pos hov]
      cases c with
      | nil =>
          rw [List.length_append] at hov
          simp [API_MAX_CACHE_SIZE] at hov
      | cons p rest =>
          obtain ⟨pk, pv⟩ := p
          rw [List.cons_append, List.tail_cons]
          exact cacheGet_append_right v (cacheGet_cons_none hn)
    · rw [if_neg hov]
      exact cacheGet_append_right v hn

/-! ## Theorems -/

/-- C1: the claim says that after five consecutive fetch failures the
scheduler uses the fixed 300000 ms fallback interval for the next fetch.
In the code the catch block does set the fallback timer (first conjunct),
but the fetch promise then resolves and the chained schedulePoll clears
that very timer and schedules by the hot/cold rule; with a change seen
150000 ms ago the fifth consecutive failure therefore leaves the hot
30000 ms timer pending, not the 300000 ms fallback (the code's own log
line at line 497 announces the five-minute interval that never takes
effect). -/
theorem c1_error_backoff_never_takes_effect :
    let cfg : Config := ⟨none, none⟩
    let st : HelperState :=
      { lastFriendsHash := some "h", errorCount := 4,
        pollState := ⟨60000, 30000, 0, 7⟩,
        timer := some (TimerK.chained 30000), scoresCache := [],
        scoreRateLimitBackoff := 0 }
    (fetchFriendsStep cfg st 150000 CycleOutcome.failure).1.timer =
        some (TimerK.fallback 300000) ∧
    (chainedCycle cfg st 150000 CycleOutcome.failure).1.errorCount = 5 ∧
    (chainedCycle cfg st 150000 CycleOutcome.failure).1.timer =
        some (TimerK.chained 30000) := by
  refine ⟨?_, ?_, ?_⟩ <;> decide

/-- C9: a cycle that retrieves an empty post-allowlist friend list emits
the empty snapshot unconditionally, leaves the stored fingerprint and the
change counter untouched, and does not reset the consecutive-error
counter, because the early return skips both the gate and the reset. -/
theorem c9_empty_list_bypasses_gate (cfg : Config) (st : HelperState)
    (now : Nat) :
    chainedCycle cfg st now CycleOutcome.emptyList =
      (schedulePollStep st now, [Event.friendsUpdate (JsonV.arr [])]) ∧
    (schedulePollStep st now).lastFriendsHash = st.lastFriendsHash ∧
    (schedulePollStep st now).errorCount = st.errorCount ∧
    (schedulePollStep st now).pollState.changeCount =
      st.pollState.changeCount := by
  refine ⟨rfl, rfl, rfl, rfl⟩

/-- C8 counterexample: the claim says every call to save() forces a flush
that serializes and atomically replaces the durable file, but a call on a
clean cache returns before any write: nothing is replaced and the state
(including lastPersist, which the claim says is reset) is unchanged. -/
theorem c8_save_skips_when_clean :
    (cacheSave ⟨false, 5, 2⟩ 99 SaveIO.ok).replaced = false ∧
    (cacheSave ⟨false, 5, 2⟩ 99 SaveIO.ok).state = ⟨false, 5, 2⟩ := by
  exact ⟨rfl, rfl⟩

/-- C8 amended: a save() call with the dirty flag set flushes: on success
it clears dirty, resets lastPersist to the call time and zeroes the
failure counter; on failure it keeps dirty set, increments the failure
counter and surfaces the cache-health notification exactly once the
counter reaches the threshold, without throwing (the transition is total).
A call with the dirty flag clear returns without writing. -/
theorem c8_save_flush (st : PersistState) (now : Nat) :
    (st.dirty = true →
      cacheSave st now SaveIO.ok =
        ⟨⟨false, now, 0⟩, true, false⟩ ∧
      cacheSave st now SaveIO.failed =
        ⟨⟨true, st.lastPersist, st.consecutiveFailures + 1⟩, false,
          decide (st.consecutiveFailures + 1 ≥ CACHE_MAX_FAILURES)⟩) ∧
    (st.dirty = false →
      cacheSave st now SaveIO.ok = ⟨st, false, false⟩ ∧
      cacheSave st now SaveIO.failed = ⟨st, false, false⟩) := by
  constructor
  · intro h
    constructor
    · simp [cacheSave, h]
    · simp [cacheSave, h]
  · intro h
    constructor
    · simp [cacheSave, h]
    · simp [cacheSave, h]

/-- C8 witness: the amended save behaviour at concrete states. -/
theorem c8_save_flush_witness :
    cacheSave ⟨true, 5, 2⟩ 99 SaveIO.failed =
      ⟨⟨true, 5, 3⟩, false, true⟩ ∧
    cacheSave ⟨true, 5, 0⟩ 99 SaveIO.ok = ⟨⟨false, 99, 0⟩, true, false⟩ := by
  have h1 := (c8_save_flush ⟨true, 5, 2⟩ 99).1 rfl
  have h2 := (c8_save_flush ⟨true, 5, 0⟩ 99).1 rfl
  exact ⟨h1.2, h2.1⟩

/-- C2 counterexample: two cycle behaviours contradict the claim that a
snapshot is emitted if and only if the fingerprint differs, with equal
fingerprints (field order notwithstanding) suppressing emission.  First, a
cycle with an empty friend list emits even though the fingerprint of the
emitted empty snapshot equals the stored one.  Second, the fingerprint is
md5 of JSON.stringify, which walks properties in insertion order, so
content differing only in field order yields a different fingerprint and
the gate emits. -/
theorem c2_gate_counterexample :
    (let stE : HelperState :=
      { lastFriendsHash := some (hashData (JsonV.arr [])), errorCount := 0,
        pollState := ⟨60000, 60000, 0, 0⟩, timer := none, scoresCache := [],
        scoreRateLimitBackoff := 0 }
     (chainedCycle ⟨none, none⟩ stE 5 CycleOutcome.emptyList).2 =
        [Event.friendsUpdate (JsonV.arr [])] ∧
     stE.lastFriendsHash = some (hashData (JsonV.arr []))) ∧
    hashData (JsonV.obj [("a", JsonV.num 1), ("b", JsonV.num 2)]) ≠
      hashData (JsonV.obj [("b", JsonV.num 2), ("a", JsonV.num 1)]) ∧
    (changeGate
      (some (hashData (JsonV.obj [("a", JsonV.num 1), ("b", JsonV.num 2)])))
      ⟨60000, 60000, 0, 0⟩ 5
      (JsonV.obj [("b", JsonV.num 2), ("a", JsonV.num 1)])).2.2 = true := by
  refine ⟨⟨rfl, rfl⟩, by decide, by decide⟩

/-- C2 amended: for every completed fetch cycle that reaches the change
gate (a non-empty post-allowlist list), the snapshot is emitted if and
only if the fingerprint of the ordered, enriched list differs from the
stored previous fingerprint; on emission the change counter is incremented,
the change timestamp updated and the fingerprint stored; on an equal
fingerprint nothing is emitted and the state is kept.  The fingerprint is
computed from the order-sensitive serialization, so content differing only
in field order fingerprints differently (last conjunct); empty-list cycles
bypass the gate (see the C9 theorem). -/
theorem c2_change_gate (cfg : Config) (st : HelperState) (now : Nat)
    (friends : List Friend) (resps : String → ScoreResp) :
    (let v := serializeFriends (pipelineRun cfg st now friends resps).2.2
     let out := chainedCycle cfg st now (CycleOutcome.friendsData friends resps)
     (out.2 = [Event.friendsUpdate v] ↔ some (hashData v) ≠ st.lastFriendsHash) ∧
     (some (hashData v) ≠ st.lastFriendsHash →
        out.1.pollState.changeCount = st.pollState.changeCount + 1 ∧
        out.1.pollState.lastChangeTime = now ∧
        out.1.lastFriendsHash = some (hashData v)) ∧
     (some (hashData v) = st.lastFriendsHash →
        out.2 = [] ∧
        out.1.pollState.changeCount = st.pollState.changeCount ∧
        out.1.pollState.lastChangeTime = st.pollState.lastChangeTime ∧
        out.1.lastFriendsHash = st.lastFriendsHash)) ∧
    hashData (JsonV.obj [("x", JsonV.num 1), ("y", JsonV.num 2)]) ≠
      hashData (JsonV.obj [("y", JsonV.num 2), ("x", JsonV.num 1)]) := by
  refine ⟨?_, by decide⟩
  simp only [chainedCycle, fetchFriendsStep, changeGate, schedulePollStep]
  by_cases h : some (hashData (serializeFriends
      (pipelineRun cfg st now friends resps).2.2)) = st.lastFriendsHash
  · simp [h]
  · simp [h]

/-- C2 witness: a first cycle (no stored fingerprint) over the empty-config
pipeline emits and counts the change. -/
theorem c2_change_gate_witness :
    (let st0 : HelperState :=
      { lastFriendsHash := none, errorCount := 0,
        pollState := ⟨60000, 60000, 0, 0⟩, timer := none, scoresCache := [],
        scoreRateLimitBackoff := 0 }
     let out := chainedCycle ⟨none, none⟩ st0 5
        (CycleOutcome.friendsData [] (fun _ => ScoreResp.errOther))
     out.1.pollState.changeCount = 1 ∧ out.1.pollState.lastChangeTime = 5) := by
  have h := (c2_change_gate ⟨none, none⟩
    { lastFriendsHash := none, errorCount := 0,
      pollState := ⟨60000, 60000, 0, 0⟩, timer := none, scoresCache := [],
      scoreRateLimitBackoff := 0 } 5 [] (fun _ => ScoreResp.errOther)).1.2.1
    (by simp)
  exact ⟨h.1, h.2.1⟩

/-- C6: a score lookup invoked while the clock is before the shared backoff
deadline returns no data without issuing a request and leaves the deadline
unchanged; a lookup that reaches the network and receives a 429-class
response returns no data and sets the deadline to now plus the cooldown;
and score lookups never count toward the consecutive-fetch-error
threshold: every cycle that retrieved a friend list ends with the error
counter at zero whatever the score responses were, because fetchGameScore
absorbs every failure instead of throwing. -/
theorem c6_rate_limit_backoff :
    (∀ (minCfg : Option Nat) (b now : Nat) (gid : String) (resp : ScoreResp),
      b > now →
      fetchGameScore minCfg b now gid resp = ⟨none, b, false⟩) ∧
    (∀ (minCfg : Option Nat) (b now : Nat) (gid : String),
      isValidGameId gid = true → b ≤ now →
      fetchGameScore minCfg b now gid ScoreResp.err429 =
        ⟨none, now + API_RATE_LIMIT_BACKOFF_MS, true⟩) ∧
    (∀ (cfg : Config) (st : HelperState) (now : Nat) (friends : List Friend)
       (resps : String → ScoreResp),
      (chainedCycle cfg st now
        (CycleOutcome.friendsData friends resps)).1.errorCount = 0) := by
  refine ⟨?_, ?_, ?_⟩
  · intro minCfg b now gid resp h
    unfold fetchGameScore
    by_cases hv : isValidGameId gid
    · simp [hv, h]
    · simp [hv]
  · intro minCfg b now gid hv hb
    unfold fetchGameScore
    simp [hv, Nat.not_lt.mpr hb]
  · intro cfg st now friends resps
    simp only [chainedCycle, fetchFriendsStep, changeGate, schedulePollStep]

/-- C6 witness: the backoff skip, the 429 cooldown and the preserved zero
error counter at concrete inputs. -/
theorem c6_rate_limit_backoff_witness :
    fetchGameScore none 5 3 "1" ScoreResp.errOther = ⟨none, 5, false⟩ ∧
    fetchGameScore none 0 7 "1" ScoreResp.err429 =
      ⟨none, 7 + API_RATE_LIMIT_BACKOFF_MS, true⟩ ∧
    (chainedCycle ⟨none, none⟩
      { lastFriendsHash := none, errorCount := 0,
        pollState := ⟨60000, 60000, 0, 0⟩, timer := none, scoresCache := [],
        scoreRateLimitBackoff := 0 } 5
      (CycleOutcome.friendsData [] (fun _ => ScoreResp.err429))).1.errorCount
      = 0 := by
  refine ⟨c6_rate_limit_backoff.1 none 5 3 "1" ScoreResp.errOther (by decide),
    c6_rate_limit_backoff.2.1 none 0 7 "1" (by decide) (by decide),
    c6_rate_limit_backoff.2.2 ⟨none, none⟩ _ 5 [] (fun _ => ScoreResp.err429)⟩

/-- C4: in every score-cache state reachable through the cache's
operations — the empty map at construction, set with a fetchGameScore
result during enrichment, reload of a saved state — an entry marked
invalid carries no score, because a fetch result is either the invalid
marker without a score or a score record without the marker. -/
theorem c4_invalid_entries_carry_no_score (c : ScoresMap)
    (hr : ScoresReachable c) (k : String) (e : ScoreEntry)
    (hm : (k, e) ∈ c) (hi : e.invalid = true) : e.score = none := by
  induction hr generalizing k e with
  | empty => cases hm
  | setStep c' gid r now _ ih =>
      unfold scoresCacheSet at hm
      split at hm
      · rcases mem_boundedInsert hm with h | h
        · exact ih k e h hi
        · have he : e = entryOfScoreResult r now := congrArg Prod.snd h
          cases r with
          | invalidR => rw [he]; rfl
          | scored s tr lu =>
              rw [he] at hi
              cases hi
      · exact ih k e hm hi
  | reload c' _ ih =>
      exact ih k e (mem_loadEntries hm) hi

/-- C4 witness: the invariant applied to the concrete reachable cache that
holds one invalid entry. -/
theorem c4_invalid_entries_witness :
    (entryOfScoreResult ScoreResult.invalidR 5).score = none := by
  exact c4_invalid_entries_carry_no_score
    (scoresCacheSet [] "10" ScoreResult.invalidR 5)
    (ScoresReachable.setStep [] "10" ScoreResult.invalidR 5
      ScoresReachable.empty)
    "10" (entryOfScoreResult ScoreResult.invalidR 5) (by decide) (by decide)

/-- C10: every playtime lookup failure (thrown error, body without a
response field) and every missing or empty games array yields the result
zero-total-playtime with the private flag; the write-back stores that
result in the cache stamped with the current time and sets the friend's
cumulative usage to zero; and on any later cycle within the cache ttl the
friend is not queued again — the zero is served from the cache. -/
theorem c10_playtime_failure_cached_as_private :
    (fetchPlaytime PlaytimeResp.netError = ⟨0, none, true⟩ ∧
     fetchPlaytime PlaytimeResp.missingResponse = ⟨0, none, true⟩ ∧
     ∀ gs : Option (List Nat), gs.getD [] = [] →
       fetchPlaytime (PlaytimeResp.ok gs) = ⟨0, none, true⟩) ∧
    (∀ (c : PlaytimeMap) (now : Nat) (friends : List Friend) (i : Nat)
       (steamId : String) (f : Friend),
      c.length ≤ API_MAX_CACHE_SIZE →
      friends.get? i = some f →
      cacheGet (applyPlaytimeResult c now friends i steamId
          (fetchPlaytime PlaytimeResp.netError)).1 steamId =
        some ⟨0, none, true, now⟩ ∧
      (applyPlaytimeResult c now friends i steamId
          (fetchPlaytime PlaytimeResp.netError)).2.get? i =
        some { f with totalPlaytime := some 0 }) ∧
    (∀ (c : PlaytimeMap) (ttl now later : Nat) (f : Friend),
      0 < now → later - now ≤ ttl →
      cacheGet c f.id = some ⟨0, none, true, now⟩ →
      playtimeDecide c ttl later [f] =
        ([{ f with totalPlaytime := some 0 }], [])) := by
  refine ⟨⟨rfl, rfl, ?_⟩, ?_, ?_⟩
  · intro gs h
    cases gs with
    | none => rfl
    | some l =>
        simp only [Option.getD] at h
        simp [fetchPlaytime, h]
  · intro c now friends i steamId f hlen hget
    constructor
    · exact cacheGet_boundedInsert_self _ hlen
    · unfold applyPlaytimeResult
      induction friends generalizing i with
      | nil => cases hget
      | cons g rest ih =>
          cases i with
          | zero =>
              cases hget
              rfl
          | succ n =>
              simpa [listModify, List.get?] using ih n (by simpa using hget)
  · intro c ttl now later f hpos hfresh hcached
    unfold playtimeDecide playtimeDecideGo playtimeDecideOne
    rw [hcached]
    have hstale : playtimeIsStale ttl later ⟨0, none, true, now⟩ = false := by
      unfold playtimeIsStale
      show (if now = 0 then true else decide (later - now > ttl)) = false
      rw [if_neg (by omega : ¬now = 0)]
      simp only [decide_eq_false_iff_not]
      omega
    simp [hstale, playtimeDecideGo]

/-- C10 witness: the failure result, the write-back and the suppressed
refetch at concrete inputs. -/
theorem c10_playtime_witness :
    cacheGet (applyPlaytimeResult [] 9
        [⟨"76", "bob", "av", "Online", false, "", none, "xx", none, none, none⟩]
        0 "76" (fetchPlaytime PlaytimeResp.netError)).1 "76" =
      some ⟨0, none, true, 9⟩ ∧
    playtimeDecide [("76", ⟨0, none, true, 9⟩)] 100 10
        [⟨"76", "bob", "av", "Online", false, "", none, "xx", none, none, none⟩] =
      ([⟨"76", "bob", "av", "Online", false, "", none, "xx", none, none, some 0⟩],
        []) := by
  refine ⟨?_, ?_⟩
  · exact (c10_playtime_failure_cached_as_private.2.1 [] 9
      [⟨"76", "bob", "av", "Online", false, "", none, "xx", none, none, none⟩]
      0 "76" ⟨"76", "bob", "av", "Online", false, "", none, "xx", none, none, none⟩
      (by decide) rfl).1
  · exact c10_playtime_failure_cached_as_private.2.2
      [("76", ⟨0, none, true, 9⟩)] 100 9 10
      ⟨"76", "bob", "av", "Online", false, "", none, "xx", none, none, none⟩
      (by decide) (by decide) (by decide)

/-- C7: a successful score response whose total review count is below the
configured minimum is treated as no data: for a friend playing an uncached
game, the enrichment leaves the cache without any entry for the game id
(no score, no invalid marker), leaves the friend record untouched (its
gameScore is not populated), and at any later cycle the decision phase
queues the same game id for fetch again. -/
theorem c7_low_review_not_cached (minCfg : Option Nat) (c : ScoresMap)
    (b ttl now : Nat) (f : Friend) (gid : String) (succ : Option Bool)
    (q : QuerySummary) (resps : String → ScoreResp)
    (hv : isValidGameId gid = true) (hg : f.gameId = some gid)
    (hc : cacheGet c gid = none) (hb : b ≤ now)
    (hresp : resps gid = ScoreResp.ok succ (some q))
    (hsucc : succ ≠ some false)
    (hlow : q.total_reviews < jsOr minCfg 50) :
    enrichWithScores minCfg c b ttl now [f] resps = (c, b, [f]) ∧
    (∀ t2, scoresDecide c ttl t2 [f] = ([f], [(gid, [0])])) := by
  have hone : ∀ t2, scoresDecideOne c ttl t2 f = (f, some gid) := by
    intro t2
    simp [scoresDecideOne, hg, hc, hv]
  have hdec : ∀ t2, scoresDecide c ttl t2 [f] = ([f], [(gid, [0])]) := by
    intro t2
    unfold scoresDecide scoresDecideGo
    rw [hone t2]
    simp [queuePush, cacheGet, scoresDecideGo]
  have hfetch : fetchGameScore minCfg b now gid (resps gid) =
      ⟨none, b, true⟩ := by
    have hnb : ¬b > now := by omega
    rw [hresp]
    simp only [fetchGameScore, hv, hnb, hsucc, hlow]
    simp
  refine ⟨?_, hdec⟩
  unfold enrichWithScores
  rw [hdec now]
  unfold scoresFetchApply
  rw [hfetch]
  rfl

/-- C7 witness: a response with ten total reviews against the default
minimum of fifty neither caches nor scores, and the id is queued again on
the next cycle. -/
theorem c7_low_review_witness :
    enrichWithScores none [] 0 7 1
      [⟨"a", "amy", "av", "Online", true, "g", some "10", "xx", none, none, none⟩]
      (fun _ => ScoreResp.ok (some true) (some ⟨5, 5, 10⟩)) =
      ([], 0,
       [⟨"a", "amy", "av", "Online", true, "g", some "10", "xx", none, none, none⟩]) ∧
    scoresDecide [] 7 2
      [⟨"a", "amy", "av", "Online", true, "g", some "10", "xx", none, none, none⟩] =
      ([⟨"a", "amy", "av", "Online", true, "g", some "10", "xx", none, none, none⟩],
       [("10", [0])]) := by
  have h := c7_low_review_not_cached none [] 0 7 1
    ⟨"a", "amy", "av", "Online", true, "g", some "10", "xx", none, none, none⟩
    "10" (some true) ⟨5, 5, 10⟩
    (fun _ => ScoreResp.ok (some true) (some ⟨5, 5, 10⟩))
    (by decide) rfl rfl (by decide) rfl (by decide) (by decide)
  exact ⟨h.1, h.2 2⟩

theorem length_mapInsert_le {E : Type} (c : List (String × E)) (k : String)
    (v : E) : (mapInsert c k v).length ≤ c.length + 1 := by
  unfold mapInsert
  split
  · rw [List.length_map]; omega
  · rw [List.length_append]; simp

theorem length_boundedInsert_le {E : Type} {c : List (String × E)}
    (k : String) (v : E) (h : c.length ≤ API_MAX_CACHE_SIZE) :
    (boundedInsert c k v).length ≤ API_MAX_CACHE_SIZE := by
  have hm := length_mapInsert_le c k v
  simp only [boundedInsert]
  split
  · rename_i hov
    rw [List.length_tail]
    omega
  · rename_i hov
    omega

/-- No key outside a key list appears in its pairing with a value
function. -/
theorem cacheGet_mapPair_none {E : Type} (f : String → E) {k : String} :
    ∀ {s : List String}, k ∉ s →
      cacheGet (s.map (fun x => (x, f x))) k = none := by
  intro s
  induction s with
  | nil => intro _; rfl
  | cons a rest ih =>
      intro hk
      rw [List.map_cons, cacheGet_cons]
      have ha : a ≠ k := by
        intro h
        subst h
        exact hk (List.mem_cons_self a rest)
      rw [if_neg ha]
      exact ih (fun h => hk (List.mem_cons_of_mem a h))

/-- Folding the bounded insert over distinct fresh keys from the empty map
keeps exactly the last API_MAX_CACHE_SIZE keys, in insertion order. -/
theorem foldl_boundedInsert_nodup {E : Type} (f : String → E) :
    ∀ (keys : List String), keys.Nodup →
      keys.foldl (fun c k => boundedInsert c k (f k)) [] =
        (keys.drop (keys.length - API_MAX_CACHE_SIZE)).map
          (fun k => (k, f k)) := by
  intro keys
  induction keys using List.reverseRecOn with
  | nil => intro _; rfl
  | append_singleton l k ih =>
      intro hnd
      have hl : l.Nodup := (List.nodup_append.mp hnd).1
      have hkl : k ∉ l := by
        intro hk
        exact (List.nodup_append.mp hnd).2.2 hk (List.mem_singleton_self k)
      rw [List.foldl_append, List.foldl_cons, List.foldl_nil, ih hl]
      have hfresh : cacheGet ((l.drop (l.length - API_MAX_CACHE_SIZE)).map
          (fun x => (x, f x))) k = none :=
        cacheGet_mapPair_none f
          (fun h => hkl ((List.drop_subset _ l) h))
      rw [boundedInsert_append (f k) hfresh]
      have hmaplen : ((l.drop (l.length - API_MAX_CACHE_SIZE)).map
          (fun x => (x, f x))).length =
          l.length - (l.length - API_MAX_CACHE_SIZE) := by
        rw [List.length_map, List.length_drop]
      have hN : 0 < API_MAX_CACHE_SIZE := by simp [API_MAX_CACHE_SIZE]
      by_cases hlen : l.length < API_MAX_CACHE_SIZE
      · rw [if_neg (by rw [List.length_append, hmaplen]; simp; omega)]
        have hidx : (l ++ [k]).length - API_MAX_CACHE_SIZE = 0 := by
          rw [List.length_append, List.length_singleton]; omega
        rw [hidx, List.drop_zero,
            show l.length - API_MAX_CACHE_SIZE = 0 by omega, List.drop_zero,
            List.map_append]
        simp
      · rw [if_pos (by rw [List.length_append, hmaplen]; simp; omega)]
        have hne : (l.drop (l.length - API_MAX_CACHE_SIZE)).map
            (fun x => (x, f x)) ≠ [] := by
          intro hnil
          have hlen0 := congrArg List.length hnil
          rw [hmaplen] at hlen0
          simp only [List.length_nil] at hlen0
          omega
        have hidx : (l ++ [k]).length - API_MAX_CACHE_SIZE =
            l.length - API_MAX_CACHE_SIZE + 1 := by
          rw [List.length_append, List.length_singleton]; omega
        rw [hidx, List.tail_append_of_ne_nil hne, ← List.map_tail,
            List.tail_drop,
            List.drop_append_of_le_length
              (by omega : l.length - API_MAX_CACHE_SIZE + 1 ≤ l.length),
            List.map_append]
        simp

theorem foldl_length_le {E A : Type}
    (step : List (String × E) → A → List (String × E))
    (hstep : ∀ c a, c.length ≤ API_MAX_CACHE_SIZE →
      (step c a).length ≤ API_MAX_CACHE_SIZE) :
    ∀ (ops : List A) (c : List (String × E)),
      c.length ≤ API_MAX_CACHE_SIZE →
      (ops.foldl step c).length ≤ API_MAX_CACHE_SIZE := by
  intro ops
  induction ops with
  | nil => intro c hc; exact hc
  | cons a rest ih => intro c hc; exact ih _ (hstep c a hc)

/-- C5: any sequence of set operations starting from the empty cache keeps
each cache within the capacity ceiling, and inserting capacity-plus-one
distinct keys into an empty cache leaves exactly capacity entries with the
very first inserted key absent (the oldest insertion is evicted on
overflow). -/
theorem c5_cache_capacity_and_eviction :
    (∀ ops : List (String × ScoreResult × Nat),
      (ops.foldl (fun c o => scoresCacheSet c o.1 o.2.1 o.2.2) []).length ≤
        API_MAX_CACHE_SIZE) ∧
    (∀ ops : List (String × PlaytimeData × Nat),
      (ops.foldl (fun c o => playtimeCacheSet c o.1 o.2.1 o.2.2) []).length ≤
        API_MAX_CACHE_SIZE) ∧
    (∀ (k0 : String) (rest : List String) (vals : String → PlaytimeData)
       (now : Nat),
      (k0 :: rest).Nodup → rest.length = API_MAX_CACHE_SIZE →
      ((k0 :: rest).foldl (fun c k => playtimeCacheSet c k (vals k) now)
          []).length = API_MAX_CACHE_SIZE ∧
      cacheGet ((k0 :: rest).foldl
          (fun c k => playtimeCacheSet c k (vals k) now) []) k0 = none) := by
  refine ⟨?_, ?_, ?_⟩
  · intro ops
    refine foldl_length_le _ ?_ ops [] (by simp)
    intro c o hc
    unfold scoresCacheSet
    split
    · exact length_boundedInsert_le _ _ hc
    · exact hc
  · intro ops
    refine foldl_length_le _ ?_ ops [] (by simp)
    intro c o hc
    unfold playtimeCacheSet
    exact length_boundedInsert_le _ _ hc
  · intro k0 rest vals now hnd hlen
    have hfold := foldl_boundedInsert_nodup
      (fun k => (⟨(vals k).totalPlaytime, (vals k).gameCount,
        (vals k).isPrivate, now⟩ : PlaytimeEntry)) (k0 :: rest) hnd
    have heq : (k0 :: rest).foldl
        (fun c k => playtimeCacheSet c k (vals k) now) [] =
        ((k0 :: rest).drop ((k0 :: rest).length - API_MAX_CACHE_SIZE)).map
          (fun k => (k, (⟨(vals k).totalPlaytime, (vals k).gameCount,
            (vals k).isPrivate, now⟩ : PlaytimeEntry))) := hfold
    have hdrop : (k0 :: rest).length - API_MAX_CACHE_SIZE = 1 := by
      rw [List.length_cons, hlen]
      omega
    rw [heq, hdrop, List.drop_succ_cons, List.drop_zero]
    constructor
    · rw [List.length_map, hlen]
    · exact cacheGet_mapPair_none _ (List.nodup_cons.mp hnd).1

/-- C5 witness: one thousand and one pairwise-distinct keys (each a run of
letters of distinct length, the empty string first) inserted into the
empty playtime cache leave one thousand entries with the first key
absent. -/
theorem c5_eviction_witness :
    ("" :: (List.range API_MAX_CACHE_SIZE).map
        (fun n => String.mk (List.replicate (n + 1) 'a'))).Nodup ∧
    ((List.range API_MAX_CACHE_SIZE).map
        (fun n => String.mk (List.replicate (n + 1) 'a'))).length =
      API_MAX_CACHE_SIZE ∧
    (("" :: (List.range API_MAX_CACHE_SIZE).map
        (fun n => String.mk (List.replicate (n + 1) 'a'))).foldl
        (fun c k => playtimeCacheSet c k ⟨0, none, false⟩ 3) []).length =
      API_MAX_CACHE_SIZE ∧
    cacheGet (("" :: (List.range API_MAX_CACHE_SIZE).map
        (fun n => String.mk (List.replicate (n + 1) 'a'))).foldl
        (fun c k => playtimeCacheSet c k ⟨0, none, false⟩ 3) []) "" = none := by
  have hinj : Function.Injective
      (fun n => String.mk (List.replicate (n + 1) 'a')) := by
    intro m n h
    have hlen := congrArg (fun s => s.data.length) h
    simp only [List.length_replicate] at hlen
    omega
  have hnotmem : "" ∉ (List.range API_MAX_CACHE_SIZE).map
      (fun n => String.mk (List.replicate (n + 1) 'a')) := by
    intro h
    rcases List.mem_map.mp h with ⟨n, -, hn⟩
    have hlen := congrArg (fun s => s.data.length) hn
    simp only [List.length_replicate] at hlen
    simp at hlen
  have hnd : ("" :: (List.range API_MAX_CACHE_SIZE).map
      (fun n => String.mk (List.replicate (n + 1) 'a'))).Nodup :=
    List.nodup_cons.mpr ⟨hnotmem, (List.nodup_range _).map hinj⟩
  have hlen : ((List.range API_MAX_CACHE_SIZE).map
      (fun n => String.mk (List.replicate (n + 1) 'a'))).length =
      API_MAX_CACHE_SIZE := by
    rw [List.length_map, List.length_range]
  have hmain := c5_cache_capacity_and_eviction.2.2 ""
    ((List.range API_MAX_CACHE_SIZE).map
      (fun n => String.mk (List.replicate (n + 1) 'a')))
    (fun _ => ⟨0, none, false⟩) 3 hnd hlen
  exact ⟨hnd, hlen, hmain.1, hmain.2⟩

theorem nameCmp_le_iff (a b : Friend) : nameCmp a b ≤ 0 ↔ a.name ≤ b.name := by
  unfold nameCmp
  rcases lt_trichotomy a.name b.name with h | h | h
  · rw [if_pos h]
    simp [le_of_lt h]
  · rw [if_neg (by rw [h]; exact lt_irrefl _),
        if_neg (by rw [h]; exact lt_irrefl _)]
    simp [le_of_eq h]
  · rw [if_neg (not_lt.mpr (le_of_lt h)), if_pos h]
    constructor
    · intro hc; cases hc
    · intro hc; exact absurd hc (not_le.mpr h)

theorem sortByConfig_eq_alphabetic {cfg : Config} (a b : Friend)
    (hm : cfg.sortFriends.getD SortMethod.alphabetic =
      SortMethod.alphabetic) :
    sortByConfig cfg a b = nameCmp a b := by
  unfold sortByConfig
  rw [hm]

theorem sortByConfig_eq_recent {cfg : Config} (a b : Friend)
    (hm : cfg.sortFriends.getD SortMethod.alphabetic =
      SortMethod.recentActivity) :
    sortByConfig cfg a b =
      if ((a.lastLogOff.getD 0 : Nat) : Int) ≠
          ((b.lastLogOff.getD 0 : Nat) : Int) then
        ((b.lastLogOff.getD 0 : Nat) : Int) - ((a.lastLogOff.getD 0 : Nat) : Int)
      else nameCmp a b := by
  unfold sortByConfig
  rw [hm]

theorem sortByConfig_eq_playtime {cfg : Config} (a b : Friend)
    (hm : cfg.sortFriends.getD SortMethod.alphabetic =
      SortMethod.totalPlaytime) :
    sortByConfig cfg a b =
      if ((a.totalPlaytime.getD 0 : Nat) : Int) ≠
          ((b.totalPlaytime.getD 0 : Nat) : Int) then
        ((b.totalPlaytime.getD 0 : Nat) : Int) -
          ((a.totalPlaytime.getD 0 : Nat) : Int)
      else nameCmp a b := by
  unfold sortByConfig
  rw [hm]

theorem sortByConfig_total (cfg : Config) (a b : Friend) :
    sortByConfig cfg a b ≤ 0 ∨ sortByConfig cfg b a ≤ 0 := by
  have hname : nameCmp a b ≤ 0 ∨ nameCmp b a ≤ 0 := by
    rw [nameCmp_le_iff, nameCmp_le_iff]
    exact le_total a.name b.name
  cases hm : cfg.sortFriends.getD SortMethod.alphabetic with
  | alphabetic =>
      rw [sortByConfig_eq_alphabetic a b hm, sortByConfig_eq_alphabetic b a hm]
      exact hname
  | recentActivity =>
      rw [sortByConfig_eq_recent a b hm, sortByConfig_eq_recent b a hm]
      by_cases h : ((a.lastLogOff.getD 0 : Nat) : Int) ≠
          ((b.lastLogOff.getD 0 : Nat) : Int)
      · rw [if_pos h, if_pos (Ne.symm h)]
        omega
      · rw [if_neg h, if_neg (fun hc => h (Ne.symm hc))]
        exact hname
  | totalPlaytime =>
      rw [sortByConfig_eq_playtime a b hm, sortByConfig_eq_playtime b a hm]
      by_cases h : ((a.totalPlaytime.getD 0 : Nat) : Int) ≠
          ((b.totalPlaytime.getD 0 : Nat) : Int)
      · rw [if_pos h, if_pos (Ne.symm h)]
        omega
      · rw [if_neg h, if_neg (fun hc => h (Ne.symm hc))]
        exact hname

theorem sortByConfig_trans (cfg : Config) (a b c : Friend)
    (hab : sortByConfig cfg a b ≤ 0) (hbc : sortByConfig cfg b c ≤ 0) :
    sortByConfig cfg a c ≤ 0 := by
  have hname : nameCmp a b ≤ 0 → nameCmp b c ≤ 0 → nameCmp a c ≤ 0 := by
    rw [nameCmp_le_iff, nameCmp_le_iff, nameCmp_le_iff]
    exact le_trans
  cases hm : cfg.sortFriends.getD SortMethod.alphabetic with
  | alphabetic =>
      rw [sortByConfig_eq_alphabetic a b hm] at hab
      rw [sortByConfig_eq_alphabetic b c hm] at hbc
      rw [sortByConfig_eq_alphabetic a c hm]
      exact hname hab hbc
  | recentActivity =>
      rw [sortByConfig_eq_recent a b hm] at hab
      rw [sortByConfig_eq_recent b c hm] at hbc
      rw [sortByConfig_eq_recent a c hm]
      by_cases h1 : ((a.lastLogOff.getD 0 : Nat) : Int) ≠
          ((b.lastLogOff.getD 0 : Nat) : Int) <;>
        by_cases h2 : ((b.lastLogOff.getD 0 : Nat) : Int) ≠
          ((c.lastLogOff.getD 0 : Nat) : Int) <;>
        [rw [if_pos h1] at hab; rw [if_pos h1] at hab;
         rw [if_neg h1] at hab; rw [if_neg h1] at hab] <;>
        [rw [if_pos h2] at hbc; rw [if_neg h2] at hbc;
         rw [if_pos h2] at hbc; rw [if_neg h2] at hbc] <;>
        by_cases h3 : ((a.lastLogOff.getD 0 : Nat) : Int) ≠
          ((c.lastLogOff.getD 0 : Nat) : Int) <;>
        first
          | (rw [if_pos h3]; omega)
          | (rw [if_neg h3]; first | omega | exact hname hab hbc)
  | totalPlaytime =>
      rw [sortByConfig_eq_playtime a b hm] at hab
      rw [sortByConfig_eq_playtime b c hm] at hbc
      rw [sortByConfig_eq_playtime a c hm]
      by_cases h1 : ((a.totalPlaytime.getD 0 : Nat) : Int) ≠
          ((b.totalPlaytime.getD 0 : Nat) : Int) <;>
        by_cases h2 : ((b.totalPlaytime.getD 0 : Nat) : Int) ≠
          ((c.totalPlaytime.getD 0 : Nat) : Int) <;>
        [rw [if_pos h1] at hab; rw [if_pos h1] at hab;
         rw [if_neg h1] at hab; rw [if_neg h1] at hab] <;>
        [rw [if_pos h2] at hbc; rw [if_neg h2] at hbc;
         rw [if_pos h2] at hbc; rw [if_neg h2] at hbc] <;>
        by_cases h3 : ((a.totalPlaytime.getD 0 : Nat) : Int) ≠
          ((c.totalPlaytime.getD 0 : Nat) : Int) <;>
        first
          | (rw [if_pos h3]; omega)
          | (rw [if_neg h3]; first | omega | exact hname hab hbc)

theorem compareFriends_eq_inGame_lt (cfg : Config) {a b : Friend}
    (ha : a.inGame = true) (hb : b.inGame = false) :
    compareFriends cfg a b = -1 := by
  unfold compareFriends
  rw [ha, hb]
  norm_num

theorem compareFriends_eq_inGame_gt (cfg : Config) {a b : Friend}
    (ha : a.inGame = false) (hb : b.inGame = true) :
    compareFriends cfg a b = 1 := by
  unfold compareFriends
  rw [ha, hb]
  norm_num

theorem compareFriends_eq_same_flag (cfg : Config) {a b : Friend}
    (h : a.inGame = b.inGame) :
    compareFriends cfg a b =
      if ((statusOrder a.status : Int)) ≠ ((statusOrder b.status : Int)) then
        ((statusOrder a.status : Int)) - ((statusOrder b.status : Int))
      else sortByConfig cfg a b := by
  unfold compareFriends
  rw [h]
  rw [if_neg (fun hc => hc rfl)]

theorem statusCmp_trans (cfg : Config) (a b c : Friend)
    (hab : (if ((statusOrder a.status : Int)) ≠ ((statusOrder b.status : Int))
      then ((statusOrder a.status : Int)) - ((statusOrder b.status : Int))
      else sortByConfig cfg a b) ≤ 0)
    (hbc : (if ((statusOrder b.status : Int)) ≠ ((statusOrder c.status : Int))
      then ((statusOrder b.status : Int)) - ((statusOrder c.status : Int))
      else sortByConfig cfg b c) ≤ 0) :
    (if ((statusOrder a.status : Int)) ≠ ((statusOrder c.status : Int))
      then ((statusOrder a.status : Int)) - ((statusOrder c.status : Int))
      else sortByConfig cfg a c) ≤ 0 := by
  by_cases h1 : ((statusOrder a.status : Int)) ≠ ((statusOrder b.status : Int)) <;>
    by_cases h2 : ((statusOrder b.status : Int)) ≠ ((statusOrder c.status : Int)) <;>
    [rw [if_pos h1] at hab; rw [if_pos h1] at hab;
     rw [if_neg h1] at hab; rw [if_neg h1] at hab] <;>
    [rw [if_pos h2] at hbc; rw [if_neg h2] at hbc;
     rw [if_pos h2] at hbc; rw [if_neg h2] at hbc] <;>
    by_cases h3 : ((statusOrder a.status : Int)) ≠ ((statusOrder c.status : Int)) <;>
    first
      | (rw [if_pos h3]; omega)
      | (rw [if_neg h3]; first | omega | exact sortByConfig_trans cfg a b c hab hbc)

theorem compareFriends_total (cfg : Config) (a b : Friend) :
    compareFriends cfg a b ≤ 0 ∨ compareFriends cfg b a ≤ 0 := by
  cases ha : a.inGame <;> cases hb : b.inGame
  · rw [compareFriends_eq_same_flag cfg (ha.trans hb.symm)]
    rw [compareFriends_eq_same_flag cfg (hb.trans ha.symm)]
    by_cases hs : ((statusOrder a.status : Int)) ≠ ((statusOrder b.status : Int))
    · rw [if_pos hs, if_pos (Ne.symm hs)]
      omega
    · rw [if_neg hs, if_neg (fun h => hs (Ne.symm h))]
      exact sortByConfig_total cfg a b
  · right
    rw [compareFriends_eq_inGame_lt cfg hb ha]
    norm_num
  · left
    rw [compareFriends_eq_inGame_lt cfg ha hb]
    norm_num
  · rw [compareFriends_eq_same_flag cfg (ha.trans hb.symm)]
    rw [compareFriends_eq_same_flag cfg (hb.trans ha.symm)]
    by_cases hs : ((statusOrder a.status : Int)) ≠ ((statusOrder b.status : Int))
    · rw [if_pos hs, if_pos (Ne.symm hs)]
      omega
    · rw [if_neg hs, if_neg (fun h => hs (Ne.symm h))]
      exact sortByConfig_total cfg a b

theorem compareFriends_trans (cfg : Config) (a b c : Friend)
    (hab : compareFriends cfg a b ≤ 0) (hbc : compareFriends cfg b c ≤ 0) :
    compareFriends cfg a c ≤ 0 := by
  cases ha : a.inGame <;> cases hb : b.inGame <;> cases hc : c.inGame
  · rw [compareFriends_eq_same_flag cfg (ha.trans hb.symm)] at hab
    rw [compareFriends_eq_same_flag cfg (hb.trans hc.symm)] at hbc
    rw [compareFriends_eq_same_flag cfg (ha.trans hc.symm)]
    exact statusCmp_trans cfg a b c hab hbc
  · rw [compareFriends_eq_inGame_gt cfg hb hc] at hbc
    omega
  · rw [compareFriends_eq_inGame_gt cfg ha hb] at hab
    omega
  · rw [compareFriends_eq_inGame_gt cfg ha hb] at hab
    omega
  · rw [compareFriends_eq_inGame_lt cfg ha hc]
    norm_num
  · rw [compareFriends_eq_inGame_gt cfg hb hc] at hbc
    omega
  · rw [compareFriends_eq_inGame_lt cfg ha hc]
    norm_num
  · rw [compareFriends_eq_same_flag cfg (ha.trans hb.symm)] at hab
    rw [compareFriends_eq_same_flag cfg (hb.trans hc.symm)] at hbc
    rw [compareFriends_eq_same_flag cfg (ha.trans hc.symm)]
    exact statusCmp_trans cfg a b c hab hbc

/-- C3: the comparator orders in-activity friends strictly before all
others; among records with the same in-activity flag it orders by the
fixed status rank, with the ranks Online 0, Busy 1, Away 2, Snooze 3,
Looking to trade 4, Looking to play 5, Offline 6 and every unrecognized
status ranked last at 99; remaining ties fall to the configured secondary
key, which defaults to the alphabetic name comparison when no sort method
is configured; and sorting is idempotent, so repeated sorts of the same
input yield the same output (an in-activity Away friend versus a
non-active Online friend is the witness instance). -/
theorem c3_sort_comparator :
    (∀ (cfg : Config) (a b : Friend), a.inGame = true → b.inGame = false →
      compareFriends cfg a b < 0) ∧
    (∀ (cfg : Config) (a b : Friend), a.inGame = b.inGame →
      statusOrder a.status < statusOrder b.status →
      compareFriends cfg a b < 0) ∧
    (∀ (cfg : Config) (a b : Friend), a.inGame = b.inGame →
      statusOrder a.status = statusOrder b.status →
      compareFriends cfg a b = sortByConfig cfg a b) ∧
    (∀ (gs : Option GameScoreCfg) (a b : Friend),
      sortByConfig ⟨none, gs⟩ a b = nameCmp a b) ∧
    (statusOrder "Online" = 0 ∧ statusOrder "Busy" = 1 ∧
     statusOrder "Away" = 2 ∧ statusOrder "Snooze" = 3 ∧
     statusOrder "Looking to trade" = 4 ∧ statusOrder "Looking to play" = 5 ∧
     statusOrder "Offline" = 6 ∧
     ∀ s : String, s ∉ (["Online", "Busy", "Away", "Snooze",
        "Looking to trade", "Looking to play", "Offline"] : List String) →
        statusOrder s = 99) ∧
    (∀ (cfg : Config) (l : List Friend),
      sortFriends cfg (sortFriends cfg l) = sortFriends cfg l) := by
  refine ⟨?_, ?_, ?_, ?_, ⟨rfl, rfl, rfl, rfl, rfl, rfl, rfl, ?_⟩, ?_⟩
  · intro cfg a b ha hb
    rw [compareFriends_eq_inGame_lt cfg ha hb]
    norm_num
  · intro cfg a b hflag hs
    rw [compareFriends_eq_same_flag cfg hflag]
    rw [if_pos (by omega :
      ((statusOrder a.status : Int)) ≠ ((statusOrder b.status : Int)))]
    omega
  · intro cfg a b hflag hs
    rw [compareFriends_eq_same_flag cfg hflag]
    rw [if_neg (by omega :
      ¬((statusOrder a.status : Int)) ≠ ((statusOrder b.status : Int)))]
  · intro gs a b
    rfl
  · intro s hs
    simp only [List.mem_cons, not_or] at hs
    obtain ⟨h1, h2, h3, h4, h5, h6, h7, -⟩ := hs
    unfold statusOrder
    rw [if_neg h1, if_neg h2, if_neg h3, if_neg h4, if_neg h5, if_neg h6,
      if_neg h7]
  · intro cfg l
    unfold sortFriends
    refine List.mergeSort_of_sorted ?_
    refine List.sorted_mergeSort ?_ ?_ l
    · intro a b c hab hbc
      simp only [decide_eq_true_eq] at hab hbc ⊢
      exact compareFriends_trans cfg a b c hab hbc
    · intro a b
      simp only [Bool.or_eq_true, decide_eq_true_eq]
      exact compareFriends_total cfg a b

/-- C3 witness: an in-activity Away friend sorts before a non-active
Online friend, status rank decides among equal flags, ties fall to the
secondary key, unknown statuses rank 99, and sorting a concrete list twice
yields the same output. -/
theorem c3_sort_comparator_witness :
    compareFriends ⟨none, none⟩
      ⟨"a", "amy", "av", "Away", true, "g", some "10", "xx", none, none, none⟩
      ⟨"b", "bob", "av", "Online", false, "", none, "xx", none, none, none⟩ < 0 ∧
    compareFriends ⟨none, none⟩
      ⟨"b", "bob", "av", "Online", false, "", none, "xx", none, none, none⟩
      ⟨"c", "cid", "av", "Away", false, "", none, "xx", none, none, none⟩ < 0 ∧
    compareFriends ⟨none, none⟩
      ⟨"b", "bob", "av", "Online", false, "", none, "xx", none, none, none⟩
      ⟨"d", "dot", "av", "Online", false, "", none, "xx", none, none, none⟩ =
      sortByConfig ⟨none, none⟩
      ⟨"b", "bob", "av", "Online", false, "", none, "xx", none, none, none⟩
      ⟨"d", "dot", "av", "Online", false, "", none, "xx", none, none, none⟩ ∧
    statusOrder "Foo" = 99 ∧
    sortFriends ⟨none, none⟩ (sortFriends ⟨none, none⟩
      [⟨"b", "bob", "av", "Online", false, "", none, "xx", none, none, none⟩,
       ⟨"a", "amy", "av", "Away", true, "g", some "10", "xx", none, none, none⟩]) =
      sortFriends ⟨none, none⟩
      [⟨"b", "bob", "av", "Online", false, "", none, "xx", none, none, none⟩,
       ⟨"a", "amy", "av", "Away", true, "g", some "10", "xx", none, none, none⟩] := by
  refine ⟨c3_sort_comparator.1 ⟨none, none⟩ _ _ rfl rfl,
    c3_sort_comparator.2.1 ⟨none, none⟩ _ _ rfl (by decide),
    c3_sort_comparator.2.2.1 ⟨none, none⟩ _ _ rfl rfl,
    c3_sort_comparator.2.2.2.2.1.2.2.2.2.2.2.2 "Foo" (by decide),
    c3_sort_comparator.2.2.2.2.2 ⟨none, none⟩ _⟩

end SteamFriends
